import Mathlib

/-!
Verification development for the Bollinger Bands streaming indicator
(`pyalgotrade/technical/bollinger.py`).

Numeric values are embedded as rationals (`ℚ`); Python's `None` is `Option.none`.
A series entry is a `(dateTime, value)` pair, kept in chronological order, so
Python's `series[-1]` is `List.getLast?`.  Exceptions raised by the handler are
embedded as `Except PyErr`: multiplying `None` by a number raises `TypeError`,
and dividing by a zero numeric raises `ZeroDivisionError` (a subclass of
`ArithmeticError`).
-/

set_option autoImplicit false

deriving instance DecidableEq for Except

/-- Errors that the embedded code can raise: Python's `TypeError`
(`None * number`), `ZeroDivisionError` (`number / 0`), and the
`ConfigError`-kind construction failure for an invalid period. -/
inductive PyErr where
  | typeError
  | zeroDivisionError
  | configError
deriving DecidableEq, Repr

/-- Output state owned by a `BollingerBands` instance: the three series it
appends to (`self.__upperBand`, `self.__lowerBand`, `self.__bandWidth`).
The middle band is the moving-average series itself and is not stored here. -/
structure BBState where
  upperBand : List (Nat × Option ℚ)
  lowerBand : List (Nat × Option ℚ)
  bandWidth : List (Nat × Option ℚ)
deriving DecidableEq, Repr

/-- SequenceDataSeries.appendWithDateTime with the default unbounded `maxLen`:
append the (dateTime, value) pair at the end of the series. -/
def appendWithDateTime (s : List (Nat × Option ℚ)) (dt : Nat) (v : Option ℚ) :
    List (Nat × Option ℚ) :=
  s ++ [(dt, v)]

/-- BollingerBands.__onNewValue: given the latest values of the internal
moving-average and moving-standard-deviation series (`self.__sma[-1]`,
`self.__stdDev[-1]`), the configured `numStdDev`, and the notification's
`(dateTime, value)`, either append to the three output series or raise.
Mirrors the source line by line:

* `value is None` → upper/lower/width locals stay `None`, appended as-is;
* `sma is None` → same;
* otherwise `upperValue = sma + stdDev * numStdDev` is computed first, which
  raises `TypeError` when `stdDev` is `None`;
* then `bandWidth = stdDev / sma`, which raises `ZeroDivisionError` when
  `sma == 0`;
* only after all three locals are computed are the three appends executed,
  so an error means no series received an entry. -/
def bb_onNewValue (numStdDev : ℚ) (smaLatest stdDevLatest : Option ℚ)
    (dateTime : Nat) (value : Option ℚ) (st : BBState) : Except PyErr BBState :=
  match value with
  | none =>
    .ok ⟨appendWithDateTime st.upperBand dateTime none,
         appendWithDateTime st.lowerBand dateTime none,
         appendWithDateTime st.bandWidth dateTime none⟩
  | some _ =>
    match smaLatest with
    | none =>
      .ok ⟨appendWithDateTime st.upperBand dateTime none,
           appendWithDateTime st.lowerBand dateTime none,
           appendWithDateTime st.bandWidth dateTime none⟩
    | some sma =>
      match stdDevLatest with
      | none => .error .typeError
      | some stdDev =>
        if sma = 0 then
          .error .zeroDivisionError
        else
          .ok ⟨appendWithDateTime st.upperBand dateTime
                 (some (sma + stdDev * numStdDev)),
               appendWithDateTime st.lowerBand dateTime
                 (some (sma + stdDev * numStdDev * (-1))),
               appendWithDateTime st.bandWidth dateTime
                 (some (stdDev / sma))⟩

/-!
The full notification pipeline.  `ma.SMA`, `stats.StdDev` and
`dataseries.SequenceDataSeries` are imported by `bollinger.py` but their code
is not part of this repository snapshot, so they are modelled from the spec
(sections 4.1 and 4.2): each statistic subscribes to the source series at
construction time; on a notification it computes over the trailing `period`
source entries (absent if fewer than `period` entries exist or any of them is
absent) and appends the result to its own series; the source series stores the
new pair before notifying its subscribers, in registration order, stopping
when a handler raises.
-/

/-- Values of the trailing `period` entries of a series (all entries when
fewer than `period` are stored). -/
def windowVals (period : Nat) (s : List (Nat × Option ℚ)) : List (Option ℚ) :=
  (s.map Prod.snd).drop (s.length - period)

/-- Full-window test from the spec: at least `period` entries are stored and
none of the trailing `period` values is absent. -/
def windowFull (period : Nat) (s : List (Nat × Option ℚ)) : Bool :=
  decide (period ≤ s.length) && (windowVals period s).all Option.isSome

/-- Modelled from the spec: the value `ma.SMA` (not under `src/`) appends on a
notification — the arithmetic mean of the trailing `period` source values when
the window is full, absent otherwise. -/
def smaValue (period : Nat) (s : List (Nat × Option ℚ)) : Option ℚ :=
  if windowFull period s then
    some (((windowVals period s).filterMap id).sum / (period : ℚ))
  else none

/-- Modelled from the spec: the value `stats.StdDev` (not under `src/`)
appends on a notification — absent unless the window is full, otherwise the
population standard deviation of the trailing `period` source values.  The
square root leaves `ℚ`, and no claim depends on the number itself, so the
numeric map on a full window is kept as the parameter `stdFn` (theorems below
hold for every `stdFn`). -/
def stdDevValue (stdFn : List ℚ → ℚ) (period : Nat) (s : List (Nat × Option ℚ)) :
    Option ℚ :=
  if windowFull period s then some (stdFn ((windowVals period s).filterMap id))
  else none

/-- Python's `series[-1]`: the value of the most recent entry.  In the
pipeline the statistic series are never empty when read (their handlers run
first), so the empty case, an `IndexError` in Python, is collapsed to
absent here. -/
def lastValue (s : List (Nat × Option ℚ)) : Option ℚ :=
  match s.getLast? with
  | some e => e.2
  | none => none

/-- Handlers subscribed to the source series' new-value event. -/
inductive Handler where
  | smaH
  | stdH
  | bbH
deriving DecidableEq, Repr

/-- State of the whole pipeline built by `BollingerBands.__init__`: the source
series, the two statistic output series, and the composite's three output
series. -/
structure Pipeline where
  period : Nat
  numStdDev : ℚ
  source : List (Nat × Option ℚ)
  smaSeries : List (Nat × Option ℚ)
  stdDevSeries : List (Nat × Option ℚ)
  bb : BBState
deriving DecidableEq, Repr

/-- Modelled from the spec: one subscriber reacting to a new source value.
The statistic handlers read the source (which already stores the new value)
and append to their own series; the composite handler is
`BollingerBands.__onNewValue`, reading the statistic series' latest values. -/
def runHandler (stdFn : List ℚ → ℚ) (h : Handler) (dt : Nat) (v : Option ℚ)
    (p : Pipeline) : Pipeline × Option PyErr :=
  match h with
  | .smaH =>
    ({ p with smaSeries := appendWithDateTime p.smaSeries dt (smaValue p.period p.source) },
     none)
  | .stdH =>
    ({ p with stdDevSeries :=
        appendWithDateTime p.stdDevSeries dt (stdDevValue stdFn p.period p.source) },
     none)
  | .bbH =>
    match bb_onNewValue p.numStdDev (lastValue p.smaSeries) (lastValue p.stdDevSeries)
        dt v p.bb with
    | .ok st => ({ p with bb := st }, none)
    | .error e => (p, some e)

/-- Modelled from the spec: synchronous fan-out of a new-value event to the
subscribed handlers in registration order; an uncaught exception aborts the
loop and propagates. -/
def notifyAll (stdFn : List ℚ → ℚ) :
    List Handler → Nat → Option ℚ → Pipeline → Pipeline × Option PyErr
  | [], _, _, p => (p, none)
  | h :: rest, dt, v, p =>
    match runHandler stdFn h dt v p with
    | (p1, none) => notifyAll stdFn rest dt v p1
    | (p1, some e) => (p1, some e)

/-- Subscribers of the source series' event after `BollingerBands.__init__`:
`ma.SMA` is constructed (and subscribes) first, `stats.StdDev` second, and
only then is `self.__onNewValue` subscribed (the source notes this order is
important since the handler uses those values). -/
def bb_subscribers : List Handler :=
  [Handler.smaH, Handler.stdH, Handler.bbH]

/-- One append to the source series: the pair is stored first, then the
new-value event is fanned out to the subscribers. -/
def stepTick (stdFn : List ℚ → ℚ) (p : Pipeline) (dt : Nat) (v : Option ℚ) :
    Pipeline × Option PyErr :=
  notifyAll stdFn bb_subscribers dt v
    { p with source := appendWithDateTime p.source dt v }

/-- Pipeline state right after `BollingerBands.__init__` on a fresh source
series: every series is empty. -/
def bb_mk (period : Nat) (numStdDev : ℚ) : Pipeline :=
  ⟨period, numStdDev, [], [], [], ⟨[], [], []⟩⟩

/-- Modelled from the spec: construction-time validation lives in the
constructors of `ma.SMA` and `stats.StdDev` (not under `src/`); the spec fixes
`period < 2` as a `ConfigError`-kind construction failure and accepts every
`period ≥ 2`. -/
def bb_construct (period : Nat) (numStdDev : ℚ) : Except PyErr Pipeline :=
  if period < 2 then .error .configError else .ok (bb_mk period numStdDev)

/-- A sequence of producer appends, stopping at the first uncaught error
(which the producer receives; the state mutated so far is kept). -/
def runTicks (stdFn : List ℚ → ℚ) (p : Pipeline) :
    List (Nat × Option ℚ) → Pipeline × Option PyErr
  | [] => (p, none)
  | (dt, v) :: rest =>
    match stepTick stdFn p dt v with
    | (p1, none) => runTicks stdFn p1 rest
    | (p1, some e) => (p1, some e)

/-- Pipeline state reached from a fresh period-2 construction by one append of
the value `-1`: the next append of `1` makes the moving average zero, so its
notification raises in the band-width division. -/
def pZeroSma : Pipeline := (runTicks (fun _ => 1) (bb_mk 2 2) [(0, some (-1))]).1

/-- Value of the most recent upper-band entry. -/
def lastUpperValue (st : BBState) : Option ℚ := lastValue st.upperBand

/-- Value of the most recent lower-band entry. -/
def lastLowerValue (st : BBState) : Option ℚ := lastValue st.lowerBand

theorem lastValue_appendWithDateTime (s : List (Nat × Option ℚ)) (dt : Nat)
    (v : Option ℚ) : lastValue (appendWithDateTime s dt v) = v := by
  simp [lastValue, appendWithDateTime]

theorem bb_onNewValue_some_eq (k sma sd v : ℚ) (dt : Nat) (st : BBState)
    (h : sma ≠ 0) :
    bb_onNewValue k (some sma) (some sd) dt (some v) st =
      .ok ⟨appendWithDateTime st.upperBand dt (some (sma + sd * k)),
           appendWithDateTime st.lowerBand dt (some (sma + sd * k * (-1))),
           appendWithDateTime st.bandWidth dt (some (sd / sma))⟩ := by
  simp only [bb_onNewValue, if_neg h]

/-- C1 (amended): on a notification whose source value is present, whose
moving-average latest value `sma` is present and nonzero, and whose
moving-standard-deviation latest value `sd` is present, the handler appends
`sma + sd * numStdDev` to the upper band, `sma - sd * numStdDev` to the lower
band and `sd / sma` to the band width, each tagged with the notification's
timestamp. -/
theorem bb_onNewValue_appends_bands (k sma sd v : ℚ) (dt : Nat) (st : BBState)
    (h : sma ≠ 0) :
    bb_onNewValue k (some sma) (some sd) dt (some v) st =
      .ok ⟨appendWithDateTime st.upperBand dt (some (sma + sd * k)),
           appendWithDateTime st.lowerBand dt (some (sma - sd * k)),
           appendWithDateTime st.bandWidth dt (some (sd / sma))⟩ := by
  have e : sma + sd * k * (-1) = sma - sd * k := by ring
  rw [bb_onNewValue_some_eq k sma sd v dt st h, e]

theorem bb_onNewValue_appends_bands_witness :
    (1 : ℚ) ≠ 0 ∧
    bb_onNewValue 2 (some 1) (some 1) 0 (some 7) ⟨[], [], []⟩ =
      .ok ⟨[(0, some (1 + 1 * 2))], [(0, some (1 - 1 * 2))], [(0, some (1 / 1))]⟩ :=
  ⟨one_ne_zero, bb_onNewValue_appends_bands 2 1 1 7 0 ⟨[], [], []⟩ one_ne_zero⟩

/-- C1 counterexample: a notification with the source value present (`1`), the
moving average present (`0`) and the standard deviation present (`1`) does not
append the claimed band values — the handler raises `ZeroDivisionError` and
returns no new state at all. -/
theorem bb_onNewValue_appends_bands_cex :
    bb_onNewValue 2 (some 0) (some 1) 3 (some 1) ⟨[], [], []⟩ =
      .error .zeroDivisionError := by
  with_unfolding_all decide

/-- C2: on a notification whose source value is absent or whose
moving-average latest value is absent, the handler appends an absent value to
each of the upper-band, lower-band and band-width series (the middle band is
the moving-average series itself, so nothing separate is appended for it). -/
theorem bb_onNewValue_absent (k : ℚ) (sma? sd? v? : Option ℚ) (dt : Nat)
    (st : BBState) (h : v? = none ∨ sma? = none) :
    bb_onNewValue k sma? sd? dt v? st =
      .ok ⟨appendWithDateTime st.upperBand dt none,
           appendWithDateTime st.lowerBand dt none,
           appendWithDateTime st.bandWidth dt none⟩ := by
  rcases h with h | h
  · subst h; rfl
  · subst h; cases v? <;> rfl

theorem bb_onNewValue_absent_witness :
    (some (5 : ℚ) = none ∨ (none : Option ℚ) = none) ∧
    bb_onNewValue 2 none (some 1) 3 (some 5) ⟨[], [], []⟩ =
      .ok ⟨[(3, none)], [(3, none)], [(3, none)]⟩ :=
  ⟨Or.inr rfl, bb_onNewValue_absent 2 none (some 1) (some 5) 3 ⟨[], [], []⟩ (Or.inr rfl)⟩

/-- C3: on every tick where the handler completes and both band values are
defined, upper − lower equals `2 * numStdDev * stdDev`, for every `numStdDev`
(negative included) and every defined standard deviation. -/
theorem bb_upper_sub_lower (k sma sd v u l : ℚ) (dt : Nat) (st st' : BBState)
    (h : bb_onNewValue k (some sma) (some sd) dt (some v) st = .ok st')
    (hu : lastUpperValue st' = some u) (hl : lastLowerValue st' = some l) :
    u - l = 2 * k * sd := by
  by_cases hz : sma = 0
  · subst hz; simp [bb_onNewValue] at h
  · rw [bb_onNewValue_some_eq k sma sd v dt st hz] at h
    cases h
    rw [lastUpperValue, lastValue_appendWithDateTime] at hu
    rw [lastLowerValue, lastValue_appendWithDateTime] at hl
    cases hu
    cases hl
    ring

theorem bb_upper_sub_lower_witness : (3 : ℚ) - (1 + 1 * 2 * (-1)) = 2 * 2 * 1 :=
  bb_upper_sub_lower 2 1 1 7 3 (1 + 1 * 2 * (-1)) 0 ⟨[], [], []⟩
    ⟨[(0, some 3)], [(0, some (1 + 1 * 2 * (-1)))], [(0, some 1)]⟩
    (by with_unfolding_all decide) (by with_unfolding_all decide)
    (by with_unfolding_all decide)

/-- C9: on every tick where the handler completes and both band values are
defined, upper + lower equals `2 * sma`: the bands are exactly symmetric about
the middle band, for every `numStdDev` including negative values. -/
theorem bb_upper_add_lower (k sma sd v u l : ℚ) (dt : Nat) (st st' : BBState)
    (h : bb_onNewValue k (some sma) (some sd) dt (some v) st = .ok st')
    (hu : lastUpperValue st' = some u) (hl : lastLowerValue st' = some l) :
    u + l = 2 * sma := by
  by_cases hz : sma = 0
  · subst hz; simp [bb_onNewValue] at h
  · rw [bb_onNewValue_some_eq k sma sd v dt st hz] at h
    cases h
    rw [lastUpperValue, lastValue_appendWithDateTime] at hu
    rw [lastLowerValue, lastValue_appendWithDateTime] at hl
    cases hu
    cases hl
    ring

theorem bb_upper_add_lower_witness : (3 : ℚ) + (1 + 1 * 2 * (-1)) = 2 * 1 :=
  bb_upper_add_lower 2 1 1 7 3 (1 + 1 * 2 * (-1)) 0 ⟨[], [], []⟩
    ⟨[(0, some 3)], [(0, some (1 + 1 * 2 * (-1)))], [(0, some 1)]⟩
    (by with_unfolding_all decide) (by with_unfolding_all decide)
    (by with_unfolding_all decide)

/-- C4: on a notification whose source value is present, whose moving average
is present and zero, and whose standard deviation is defined, the band-width
division raises `ZeroDivisionError` — Python's `ArithmeticError`-kind numeric
domain error; no not-a-number sentinel is ever produced, so raising is the one
policy the implementation follows. -/
theorem bb_onNewValue_zero_sma (k sd v : ℚ) (dt : Nat) (st : BBState) :
    bb_onNewValue k (some 0) (some sd) dt (some v) st = .error .zeroDivisionError := by
  simp [bb_onNewValue]

/-- C10: on a notification whose source value and moving-average latest value
are present but whose moving-standard-deviation latest value is absent, the
handler raises `TypeError` (Python evaluates `stdDev * numStdDev` with
`stdDev = None`) instead of appending absent values: its non-error completion
presupposes that the standard deviation is defined whenever the moving
average is. -/
theorem bb_onNewValue_missing_stdDev (k sma v : ℚ) (dt : Nat) (st : BBState) :
    bb_onNewValue k (some sma) none dt (some v) st = .error .typeError := rfl

theorem bb_onNewValue_ok_lengths (k : ℚ) (sma? sd? v? : Option ℚ) (dt : Nat)
    (st st' : BBState) (h : bb_onNewValue k sma? sd? dt v? st = .ok st') :
    st'.upperBand.length = st.upperBand.length + 1 ∧
    st'.lowerBand.length = st.lowerBand.length + 1 ∧
    st'.bandWidth.length = st.bandWidth.length + 1 := by
  cases v? with
  | none =>
    cases h
    simp [appendWithDateTime]
  | some v =>
    cases sma? with
    | none =>
      cases h
      simp [appendWithDateTime]
    | some sma =>
      cases sd? with
      | none => exact absurd h (by simp [bb_onNewValue])
      | some sd =>
        by_cases hz : sma = 0
        · subst hz; simp [bb_onNewValue] at h
        · rw [bb_onNewValue_some_eq k sma sd v dt st hz] at h
          cases h
          simp [appendWithDateTime]

theorem stepTick_ok_lengths (stdFn : List ℚ → ℚ) (p p' : Pipeline) (dt : Nat)
    (v : Option ℚ) (h : stepTick stdFn p dt v = (p', none)) :
    p'.source.length = p.source.length + 1 ∧
    p'.bb.upperBand.length = p.bb.upperBand.length + 1 ∧
    p'.bb.lowerBand.length = p.bb.lowerBand.length + 1 ∧
    p'.bb.bandWidth.length = p.bb.bandWidth.length + 1 := by
  simp only [stepTick, bb_subscribers, notifyAll, runHandler] at h
  split at h
  · rename_i p1 hbb
    cases h
    split at hbb
    · rename_i st hok
      cases hbb
      have hl := bb_onNewValue_ok_lengths _ _ _ _ _ _ _ hok
      simpa [appendWithDateTime] using hl
    · simp at hbb
  · simp at h

theorem runTicks_ok_lengths (stdFn : List ℚ → ℚ)
    (ticks : List (Nat × Option ℚ)) (p p' : Pipeline)
    (h : runTicks stdFn p ticks = (p', none)) :
    p'.source.length = p.source.length + ticks.length ∧
    p'.bb.upperBand.length = p.bb.upperBand.length + ticks.length ∧
    p'.bb.lowerBand.length = p.bb.lowerBand.length + ticks.length ∧
    p'.bb.bandWidth.length = p.bb.bandWidth.length + ticks.length := by
  induction ticks generalizing p with
  | nil =>
    cases h
    simp
  | cons t rest ih =>
    obtain ⟨dt, v⟩ := t
    rw [runTicks] at h
    rcases hst : stepTick stdFn p dt v with ⟨p1, e?⟩
    rw [hst] at h
    cases e? with
    | none =>
      have h1 := stepTick_ok_lengths stdFn p p1 dt v hst
      have h2 := ih p1 h
      simp only [List.length_cons]
      omega
    | some e => cases h

/-- C5 (amended): after `n` appends to the source series of a freshly
constructed pipeline during which no notification raised an uncaught error,
each of the upper-band, lower-band and band-width series contains exactly `n`
entries (absent entries included), 1:1 time-aligned with the source series.
When a notification raises (a zero moving average on a value-present tick),
the outputs skip that tick and the alignment is lost. -/
theorem bb_output_lengths (stdFn : List ℚ → ℚ) (period : Nat) (k : ℚ)
    (ticks : List (Nat × Option ℚ)) (p' : Pipeline)
    (h : runTicks stdFn (bb_mk period k) ticks = (p', none)) :
    p'.source.length = ticks.length ∧
    p'.bb.upperBand.length = ticks.length ∧
    p'.bb.lowerBand.length = ticks.length ∧
    p'.bb.bandWidth.length = ticks.length := by
  have hl := runTicks_ok_lengths stdFn ticks (bb_mk period k) p' h
  simpa [bb_mk] using hl

theorem bb_output_lengths_witness :
    (runTicks (fun _ => 0) (bb_mk 2 2) [(0, some 1), (1, some 2)]).1.source.length = 2 ∧
    (runTicks (fun _ => 0) (bb_mk 2 2) [(0, some 1), (1, some 2)]).1.bb.upperBand.length = 2 ∧
    (runTicks (fun _ => 0) (bb_mk 2 2) [(0, some 1), (1, some 2)]).1.bb.lowerBand.length = 2 ∧
    (runTicks (fun _ => 0) (bb_mk 2 2) [(0, some 1), (1, some 2)]).1.bb.bandWidth.length = 2 :=
  bb_output_lengths (fun _ => 0) 2 2 [(0, some 1), (1, some 2)]
    (runTicks (fun _ => 0) (bb_mk 2 2) [(0, some 1), (1, some 2)]).1
    (by with_unfolding_all decide)

/-- C5 counterexample: two appends to a fresh period-2 pipeline with values
`-1` then `1` leave the source with 2 entries but the upper band with 1: the
second tick's moving average is zero, its notification raises, and the outputs
receive nothing for it. -/
theorem bb_output_lengths_cex :
    (runTicks (fun _ => 1) (bb_mk 2 2) [(0, some (-1)), (1, some 1)]).1.source.length = 2 ∧
    (runTicks (fun _ => 1) (bb_mk 2 2) [(0, some (-1)), (1, some 1)]).1.bb.upperBand.length = 1 ∧
    (runTicks (fun _ => 1) (bb_mk 2 2) [(0, some (-1)), (1, some 1)]).1.bb.lowerBand.length = 1 ∧
    (runTicks (fun _ => 1) (bb_mk 2 2) [(0, some (-1)), (1, some 1)]).1.bb.bandWidth.length = 1 := by
  with_unfolding_all decide

/-- C6: `BollingerBands.__init__` subscribes its own handler to the source
series only after constructing (and thereby subscribing) the moving-average
and moving-standard-deviation providers, so on every notification cycle the
composite's handler reads statistic latest values already updated for the
current tick: its post-tick output state equals `__onNewValue` applied to the
statistics computed from the source including the new pair. -/
theorem bb_reads_current_stats (stdFn : List ℚ → ℚ) (p : Pipeline) (dt : Nat)
    (v : Option ℚ) :
    bb_subscribers = [Handler.smaH, Handler.stdH, Handler.bbH] ∧
    (stepTick stdFn p dt v).1.bb =
      (match bb_onNewValue p.numStdDev
          (smaValue p.period (appendWithDateTime p.source dt v))
          (stdDevValue stdFn p.period (appendWithDateTime p.source dt v))
          dt v p.bb with
       | .ok st => st
       | .error _ => p.bb) := by
  refine ⟨rfl, ?_⟩
  simp only [stepTick, bb_subscribers, notifyAll, runHandler,
    lastValue_appendWithDateTime]
  cases hbb : bb_onNewValue p.numStdDev
      (smaValue p.period (appendWithDateTime p.source dt v))
      (stdDevValue stdFn p.period (appendWithDateTime p.source dt v))
      dt v p.bb with
  | ok st => simp [hbb]
  | error e => simp [hbb]

/-- C7: constructing the composite (equivalently, either internal statistic
provider) with `period < 2` fails at construction time with the
`ConfigError`-kind error, and every `period ≥ 2` is accepted unchanged. -/
theorem bb_construct_period_validation (period : Nat) (k : ℚ) :
    (period < 2 → bb_construct period k = .error .configError) ∧
    (2 ≤ period → bb_construct period k = .ok (bb_mk period k)) := by
  constructor
  · intro h
    rw [bb_construct, if_pos h]
  · intro h
    rw [bb_construct, if_neg (Nat.not_lt.mpr h)]

theorem bb_construct_period_validation_witness :
    bb_construct 1 2 = .error .configError ∧ bb_construct 2 2 = .ok (bb_mk 2 2) :=
  ⟨(bb_construct_period_validation 1 2).1 (by decide),
   (bb_construct_period_validation 2 2).2 (by decide)⟩

/-- C8: when a notification handler raises (in particular the band-width
division by zero), the error is not caught internally — it surfaces in the
step's result and terminates the notification — and none of the upper-band,
lower-band or band-width series receives an entry for that tick: the
composite's output state is exactly what it was before the tick. -/
theorem bb_error_leaves_outputs (stdFn : List ℚ → ℚ) (p p' : Pipeline)
    (dt : Nat) (v : Option ℚ) (e : PyErr)
    (h : stepTick stdFn p dt v = (p', some e)) :
    p'.bb = p.bb := by
  simp only [stepTick, bb_subscribers, notifyAll, runHandler] at h
  split at h
  · simp at h
  · rename_i p1 e1 hbb
    cases h
    split at hbb
    · simp at hbb
    · cases hbb
      rfl

theorem bb_error_leaves_outputs_witness :
    (stepTick (fun _ => 1) pZeroSma 1 (some 1)).1.bb = pZeroSma.bb :=
  bb_error_leaves_outputs (fun _ => 1) pZeroSma
    (stepTick (fun _ => 1) pZeroSma 1 (some 1)).1 1 (some 1) .zeroDivisionError
    (by with_unfolding_all decide)
